import Mathlib

/-!
Verification of the CSS angle value core (`src/values/angle.rs`).

Embedding conventions:

* The source's `f32` magnitudes are modelled by `F`: either an exact rational
  (`F.fin`) or the not-a-number value (`F.nan`).  Floating-point rounding is
  idealised away (arithmetic on `F.fin` is exact rational arithmetic);
  infinities are not modelled, as no statement below depends on them.
  `std::f32::consts::PI` is the concrete binary32 constant, reproduced here as
  the exact rational it denotes.
* The token stream of the external `cssparser` lexer is modelled at the token
  level: `Angle.parse` receives the result of the lexer's `next` call, the two
  source locations the cursor would report, and the result that `Calc::parse`
  would produce for the `calc` branch.
* The sink (`Printer`) is modelled by returning the written `String`.
-/

/-!
Kernel-computable rational arithmetic.  Batteries marks `Rat.mul`, `Rat.add`,
`Rat.sub` and `Rat.inv` irreducible, which blocks kernel evaluation (`decide`)
on concrete inputs; the `q*` wrappers below compute through `mkRat` instead
and are identified with the standard operations by the `q*_eq` lemmas.
-/

/-- Multiplication on `ℚ`, kernel-computable; equals `a * b`. -/
def qmul (a b : ℚ) : ℚ := mkRat (a.num * b.num) (a.den * b.den)

/-- Addition on `ℚ`, kernel-computable; equals `a + b`. -/
def qadd (a b : ℚ) : ℚ := mkRat (a.num * b.den + b.num * a.den) (a.den * b.den)

/-- Subtraction on `ℚ`, kernel-computable; equals `a - b`. -/
def qsub (a b : ℚ) : ℚ := mkRat (a.num * b.den - b.num * a.den) (a.den * b.den)

/-- Inverse on `ℚ`, kernel-computable; `qinv 0 = 0`. -/
def qinv (a : ℚ) : ℚ := mkRat (a.num.sign * a.den) a.num.natAbs

/-- Division on `ℚ`, kernel-computable. -/
def qdiv (a b : ℚ) : ℚ := qmul a (qinv b)

/-- Absolute value on `ℚ`, kernel-computable; equals `|a|`. -/
def qabs (a : ℚ) : ℚ := if a < 0 then -a else a

/-- Floor on `ℚ`, kernel-computable; equals `⌊a⌋`. -/
def qfloor (a : ℚ) : ℤ := Rat.floor a

theorem qmul_eq (a b : ℚ) : qmul a b = a * b :=
  ((Rat.mul_def a b).trans (Rat.normalize_eq_mkRat _)).symm

theorem qadd_eq (a b : ℚ) : qadd a b = a + b := (Rat.add_def' a b).symm

theorem qsub_eq (a b : ℚ) : qsub a b = a - b := (Rat.sub_def' a b).symm

theorem qabs_eq (a : ℚ) : qabs a = |a| := by
  rw [qabs]
  split
  · exact (abs_of_neg (by assumption)).symm
  · exact (abs_of_nonneg (not_lt.1 (by assumption))).symm

theorem qfloor_eq (a : ℚ) : qfloor a = ⌊a⌋ :=
  (Rat.floor_def' a).trans Rat.floor_def.symm

/-- Model of a Rust `f32` magnitude: an exact rational or NaN. -/
inductive F where
  | fin (q : ℚ)
  | nan
deriving DecidableEq

instance : Inhabited F := ⟨F.nan⟩

/-- Rust `f32` equality (`==`): NaN compares unequal to everything. -/
def F.beq : F → F → Bool
  | .fin a, .fin b => decide (a = b)
  | _, _ => false

/-- Rust `f32` strict less-than: false whenever NaN is involved. -/
def F.lt : F → F → Bool
  | .fin a, .fin b => decide (a < b)
  | _, _ => false

/-- Rust `f32::partial_cmp`: `None` exactly when a NaN is involved. -/
def F.partialCmp : F → F → Option Ordering
  | .fin a, .fin b => some (if a < b then .lt else if a = b then .eq else .gt)
  | _, _ => none

/-- Rust `f32` addition; NaN is absorbing. -/
def F.add : F → F → F
  | .fin a, .fin b => .fin (qadd a b)
  | _, _ => .nan

/-- Rust `f32` multiplication; NaN is absorbing. -/
def F.mul : F → F → F
  | .fin a, .fin b => .fin (qmul a b)
  | _, _ => .nan

/-- Rust `f32` division; NaN is absorbing.  The source divides only by the
nonzero constant `200.0`, so the rational division is exact there. -/
def F.div : F → F → F
  | .fin a, .fin b => .fin (qdiv a b)
  | _, _ => .nan

/-- Rust `f32::abs`. -/
def F.abs : F → F
  | .fin q => .fin (qabs q)
  | .nan => .nan

/-- Truncation toward zero, as Rust `f32::trunc` produces on finite values. -/
def rTrunc (q : ℚ) : ℤ := if 0 ≤ q then qfloor q else -qfloor (-q)

/-- Rounding half away from zero, as Rust `f32::round` on finite values. -/
def rRound (q : ℚ) : ℤ := if 0 ≤ q then qfloor (qadd q (mkRat 1 2)) else -qfloor (qadd (-q) (mkRat 1 2))

/-- Rust `f32::round` lifted to `F`. -/
def F.round : F → F
  | .fin q => .fin ((rRound q : ℤ) : ℚ)
  | .nan => .nan

/-- Rust `f32::fract` (`self - self.trunc()`) lifted to `F`. -/
def F.fract : F → F
  | .fin q => .fin (qsub q ((rTrunc q : ℤ) : ℚ))
  | .nan => .nan

/-- Whether the value is NaN. -/
def F.isNan : F → Bool
  | .fin _ => false
  | .nan => true

/-- Rust `as i32` cast: truncate toward zero, saturating; NaN maps to 0. -/
def F.toI32 : F → Int
  | .fin q =>
      let t := rTrunc q
      if t < -(2 ^ 31) then -(2 ^ 31) else if 2 ^ 31 - 1 < t then 2 ^ 31 - 1 else t
  | .nan => 0

/-- A source location of the lexer, for error attribution. -/
structure SourceLocation where
  line : Nat
  column : Nat
deriving DecidableEq

/-- The lexer tokens this core inspects: dimension tokens, function tokens,
and a representative for every other token kind. -/
inductive Token where
  | Dimension (hasSign : Bool) (value : F) (intValue : Option Int) (unit : String)
  | Function (name : String)
  | Other
deriving DecidableEq

/-- The error kinds of the lexer's `BasicParseErrorKind` used by this core. -/
inductive BasicParseErrorKind where
  | UnexpectedToken (t : Token)
  | EndOfInput
  | QualifiedRuleInvalid
deriving DecidableEq

/-- A structured parse error: an error kind plus the location it refers to. -/
structure ParseError where
  kind : BasicParseErrorKind
  location : SourceLocation
deriving DecidableEq

mutual

/-- The `Angle` enum of `src/values/angle.rs`: four literal units and a
deferred `Calc` expression. -/
inductive Angle where
  | Deg (v : F)
  | Grad (v : F)
  | Rad (v : F)
  | Turn (v : F)
  | Calc (c : CalcAngle)

/-- Modelled from the spec: the generic `Calc` expression tree of `calc.rs`
(which lies outside `src/`), instantiated at `Angle` leaves — a tagged union
of a resolved leaf, a sum of two trees, and a product by a scalar. -/
inductive CalcAngle where
  | Value (v : Angle)
  | Sum (a b : CalcAngle)
  | Product (s : F) (c : CalcAngle)

end

/-- Modelled from the spec: the `+` operator of the `Calc` tree (outside
`src/`), combining two expression trees. -/
def CalcAngle.add (a b : CalcAngle) : CalcAngle := CalcAngle.Sum a b

/-- Modelled from the spec: the scalar `*` operator of the `Calc` tree
(outside `src/`), pushing the scalar into the tree structurally. -/
def CalcAngle.mulScalar (c : CalcAngle) (s : F) : CalcAngle := CalcAngle.Product s c

/-- ASCII lowercasing of one character. -/
def asciiLowerChar (c : Char) : Char :=
  if 65 ≤ c.toNat ∧ c.toNat ≤ 90 then Char.ofNat (c.toNat + 32) else c

/-- ASCII lowercasing of a string; `match_ignore_ascii_case! s, "pat" => ...`
of the source is modelled as `asciiLower s = "pat"` (the patterns are all
lowercase ASCII). -/
def asciiLower (s : String) : String := ⟨s.data.map asciiLowerChar⟩

/-- The parser of `impl Parse for Angle` (angle.rs lines 17-45), modelled over
the lexer's outputs: `loc` is the `current_source_location` captured before
`next`, `locCur` the location the cursor reports afterwards (used by
`input.new_error`), `tokRes` the result of `input.next()`, and `calcRes` the
result `Calc::parse(input)` would return in the `calc` branch. -/
def Angle.parse (loc locCur : SourceLocation) (tokRes : Except ParseError Token)
    (calcRes : Except ParseError CalcAngle) : Except ParseError Angle :=
  match tokRes with
  | .error e => .error e
  | .ok tok =>
    match tok with
    | .Dimension hasSign value intValue unit =>
        if asciiLower unit = "deg" then .ok (.Deg value)
        else if asciiLower unit = "grad" then .ok (.Grad value)
        else if asciiLower unit = "turn" then .ok (.Turn value)
        else if asciiLower unit = "rad" then .ok (.Rad value)
        else .error ⟨.UnexpectedToken (.Dimension hasSign value intValue unit), loc⟩
    | .Function name =>
        if asciiLower name = "calc" then
          match calcRes with
          | .error e => .error e
          | .ok (.Value v) => .ok v
          | .ok c => .ok (.Calc c)
        else .error ⟨.QualifiedRuleInvalid, locCur⟩
    | .Other => .error ⟨.UnexpectedToken .Other, loc⟩

/-- The exact rational denoted by the binary32 constant `std::f32::consts::PI`. -/
def PI_Q : ℚ := mkRat 13176795 4194304

/-- The source's `RAD_PER_DEG: f32 = PI / 180.0` (exact rational division). -/
def RAD_PER_DEG : ℚ := qdiv PI_Q 180

/-- The source's `DEG_PER_RAD: f32 = 180.0 / PI` (exact rational division). -/
def DEG_PER_RAD : ℚ := qdiv 180 PI_Q

/-- The `to_radians` query (angle.rs lines 114-124). -/
def Angle.toRadians : Angle → Option F
  | .Deg d => some (F.mul d (F.fin RAD_PER_DEG))
  | .Rad r => some r
  | .Grad g => some (F.mul (F.div (F.mul g (F.fin 180)) (F.fin 200)) (F.fin RAD_PER_DEG))
  | .Turn t => some (F.mul (F.mul t (F.fin 360)) (F.fin RAD_PER_DEG))
  | .Calc _ => none

/-- The `to_degrees` query (angle.rs lines 126-136). -/
def Angle.toDegrees : Angle → Option F
  | .Deg d => some d
  | .Rad r => some (F.mul r (F.fin DEG_PER_RAD))
  | .Grad g => some (F.div (F.mul g (F.fin 180)) (F.fin 200))
  | .Turn t => some (F.mul t (F.fin 360))
  | .Calc _ => none

/-- The `is_zero` query (angle.rs lines 106-112). -/
def Angle.isZero : Angle → Bool
  | .Deg v | .Rad v | .Grad v | .Turn v => F.beq v (F.fin 0)
  | .Calc _ => false

/-- The `(value, unit)` selection of the serializer (angle.rs lines 49-76,
literal variants): degrees, gradians and turns pass through, while radians
consult `to_degrees` and the `(deg * 100000.0).round().fract() == 0.0` test;
`none` for the `Calc` variant, which takes a separate path. -/
def Angle.selValUnit : Angle → Option (F × String)
  | .Deg v => some (v, "deg")
  | .Grad v => some (v, "grad")
  | .Rad v =>
      match Angle.toDegrees (.Rad v) with
      | some deg =>
          if F.beq (F.fract (F.round (F.mul deg (F.fin 100000)))) (F.fin 0) then
            some (deg, "deg")
          else some (v, "rad")
      | none => some (v, "rad")
  | .Turn v => some (v, "turn")
  | .Calc _ => none

/-- Repeatedly remove the prefix `pat` from the front of `s`, as Rust's
`str::trim_start_matches` with a string pattern does. -/
def trimStartList : Nat → List Char → List Char → List Char
  | 0, s, _ => s
  | n + 1, s, pat =>
      if pat ≠ [] ∧ pat.isPrefixOf s then trimStartList n (s.drop pat.length) pat else s

/-- Rust `str::trim_start_matches` with a string pattern. -/
def trimStartMatchesStr (s pat : String) : String :=
  ⟨trimStartList s.data.length s.data pat.data⟩

/-- Rust `str::trim_start_matches` with a char pattern. -/
def trimStartMatchesChar (s : String) (c : Char) : String :=
  ⟨s.data.dropWhile (fun x => x == c)⟩

/-- The character for a decimal digit. -/
def digitChar (d : Nat) : Char := Char.ofNat (48 + d)

/-- The first `n` decimal digits of a rational in `[0, 1)`. -/
def fracDigitList : ℚ → Nat → List Nat
  | _, 0 => []
  | q, n + 1 =>
      let d := qfloor (qmul q 10)
      d.toNat :: fracDigitList (qsub (qmul q 10) ((d : ℤ) : ℚ)) n

/-- Drop trailing zero digits. -/
def trimZeros (l : List Nat) : List Nat :=
  (l.reverse.dropWhile (fun d => d == 0)).reverse

/-- Modelled from the spec: the decimal rendering of a numeric value by the
external lexer's serializer (spec section 6).  The shortest-roundtrip float
formatting of the real lexer is approximated by at most seven fractional
digits with trailing zeros removed; every concrete value appearing in the
claims renders identically under both. -/
def F.toDecimalString : F → String
  | .nan => "NaN"
  | .fin q =>
      let a := qabs q
      let ip := qfloor a
      let ds := trimZeros (fracDigitList (qsub a ((ip : ℤ) : ℚ)) 7)
      (if q < 0 then "-" else "") ++ toString ip ++
        (if ds.isEmpty then "" else "." ++ String.mk (ds.map digitChar))

/-- Modelled from the spec: the external lexer's own token serialization
(spec section 6): a dimension token writes its numeric value — the integer
representation when `intValue` is present, the decimal one otherwise —
immediately followed by the unit. -/
def Token.toCssString : Token → String
  | .Dimension _ value intValue unit =>
      (match intValue with
       | some i => toString i
       | none => F.toDecimalString value) ++ unit
  | .Function name => name ++ "("
  | .Other => ""

/-- The dimension token the serializer builds (angle.rs lines 79-89):
`has_sign` when the value is negative, and an integer value exactly when the
magnitude has no fractional part. -/
def dimToken (value : F) (unit : String) : Token :=
  Token.Dimension (F.lt value (F.fin 0)) value
    (if F.beq (F.fract value) (F.fin 0) then some (F.toI32 value) else none) unit

/-- Serialization of a selected `(value, unit)` pair (angle.rs lines 79-101):
leading-zero compaction applies when the value is nonzero with absolute value
strictly below one; otherwise the token is written unmodified. -/
def dimToCss (value : F) (unit : String) : String :=
  if (!(F.beq value (F.fin 0))) && F.lt (F.abs value) (F.fin 1) then
    let s := Token.toCssString (dimToken value unit)
    if F.lt value (F.fin 0) then "-" ++ trimStartMatchesStr s "-0"
    else trimStartMatchesChar s '0'
  else Token.toCssString (dimToken value unit)

/-- Serialization of a literal (non-`Calc`) angle: the `(value, unit)`
selection followed by `dimToCss`.  The `none` arm is unreachable
(`selValUnit` is `some` on every literal variant). -/
def Angle.litCss (v : Angle) : String :=
  match Angle.selValUnit v with
  | some (value, unit) => dimToCss value unit
  | none => ""

/-- Modelled from the spec: serialization of the `Calc` tree itself
(`calc.rs` lies outside `src/`).  Leaves are literal angles by the collapse
invariant of spec section 3 and render through the literal serializer; the
textual form of sums and products is not relied upon by any claim. -/
def CalcAngle.toCss : CalcAngle → String
  | .Value w => Angle.litCss w
  | .Sum a b => CalcAngle.toCss a ++ " + " ++ CalcAngle.toCss b
  | .Product s c => F.toDecimalString s ++ "*" ++ CalcAngle.toCss c

/-- The serializer `to_css` (angle.rs lines 47-103).  A `Calc` wrapping a
single resolved leaf serializes that leaf directly (the leaf is a literal by
the collapse invariant, so the recursive `v.to_css` call of line 68 is the
literal path `litCss`); any other `Calc` is wrapped in a textual
`calc( ... )`; literal variants go through selection and compaction. -/
def Angle.toCss : Angle → String
  | .Calc (.Value w) => Angle.litCss w
  | .Calc c => "calc(" ++ CalcAngle.toCss c ++ ")"
  | v => Angle.litCss v

/-- Scalar multiplication (angle.rs lines 139-151): every literal variant is
re-tagged as degrees; a `Calc` pushes the scalar into the tree. -/
def Angle.mul (v : Angle) (other : F) : Angle :=
  match v with
  | .Deg x => .Deg (F.mul x other)
  | .Rad x => .Deg (F.mul x other)
  | .Grad x => .Deg (F.mul x other)
  | .Turn x => .Deg (F.mul x other)
  | .Calc c => .Calc (CalcAngle.mulScalar c other)

/-- Addition (angle.rs lines 153-164).  The final arm mirrors
`a.to_degrees().unwrap() + b.to_degrees().unwrap()`; the `getD` default is
never consulted because both operands are literal there. -/
def Angle.add : Angle → Angle → Angle
  | .Calc a, .Calc b => .Calc (CalcAngle.add a b)
  | .Calc a, b => .Calc (CalcAngle.add a (.Value b))
  | a, .Calc b => .Calc (CalcAngle.add (.Value a) b)
  | a, b => .Deg (F.add ((Angle.toDegrees a).getD F.nan) ((Angle.toDegrees b).getD F.nan))

/-- Equality against a bare scalar (angle.rs lines 166-173): raw stored
magnitude, no unit conversion; `Calc` is never equal. -/
def Angle.eqScalar (v : Angle) (other : F) : Bool :=
  match v with
  | .Deg a | .Rad a | .Grad a | .Turn a => F.beq a other
  | .Calc _ => false

/-- Ordering against a bare scalar (angle.rs lines 175-181): raw stored
magnitude, no unit conversion; `Calc` is incomparable. -/
def Angle.partialCmpScalar (v : Angle) (other : F) : Option Ordering :=
  match v with
  | .Deg a | .Rad a | .Grad a | .Turn a => F.partialCmp a other
  | .Calc _ => none

/-- The degree-to-radian conversion factor as the serialized spec states it:
multiplication by `PI / 180` (the source's `RAD_PER_DEG`). -/
def degToRad (d : F) : F := F.mul d (F.fin RAD_PER_DEG)

/-!  Helper lemmas shared by several claim theorems. -/

theorem rTrunc_intCast (z : ℤ) : rTrunc (z : ℚ) = z := by
  unfold rTrunc
  simp only [qfloor_eq]
  split
  · exact Int.floor_intCast z
  · rw [← Int.cast_neg, Int.floor_intCast, neg_neg]

theorem fract_round_fin (x : ℚ) : F.fract (F.round (F.fin x)) = F.fin 0 := by
  simp [F.round, F.fract, rTrunc_intCast, qsub_eq]

theorem selValUnit_rad_fin (q : ℚ) :
    Angle.selValUnit (Angle.Rad (F.fin q)) = some (F.fin (qmul q DEG_PER_RAD), "deg") := by
  simp [Angle.selValUnit, Angle.toDegrees, F.mul, fract_round_fin, F.beq]

theorem toCss_selValUnit (v : Angle) (value : F) (unit : String)
    (h : Angle.selValUnit v = some (value, unit)) :
    Angle.toCss v = dimToCss value unit := by
  cases v with
  | Deg a => simp only [Angle.toCss, Angle.litCss, h]
  | Grad a => simp only [Angle.toCss, Angle.litCss, h]
  | Rad a => simp only [Angle.toCss, Angle.litCss, h]
  | Turn a => simp only [Angle.toCss, Angle.litCss, h]
  | Calc c => simp [Angle.selValUnit] at h

/-- C1: contrary to the claim, the radian serializer's degree-switch test
`(deg * 100000.0).round().fract() == 0.0` is identically true on finite
values (rounding always produces an integer, whose fractional part is zero),
so every finite radian magnitude — `Radians(1.0)` included — is emitted in
degrees; the output for `Radians(1.0)` is the degree conversion followed by
the unit `deg`, not the text `1rad` the claim requires. -/
theorem rad_serializer_always_degrees :
    (∀ q : ℚ, Angle.selValUnit (Angle.Rad (F.fin q)) =
      some (F.fin (qmul q DEG_PER_RAD), "deg")) ∧
    Angle.selValUnit (Angle.Rad (F.fin 1)) = some (F.fin DEG_PER_RAD, "deg") ∧
    Angle.toCss (Angle.Rad (F.fin 1)) = F.toDecimalString (F.fin DEG_PER_RAD) ++ "deg" ∧
    Angle.toCss (Angle.Rad (F.fin 1)) ≠ "1rad" :=
  ⟨selValUnit_rad_fin, by decide, by decide, by decide⟩

/-- C7: equality and ordering against a bare scalar compare the raw stored
magnitude with no unit conversion — each literal variant delegates to the
scalar comparison on its payload (so `Radians(1.0)` equals the scalar `1.0`),
while the `Calc` variant is never equal to any scalar and is incomparable. -/
theorem scalar_eq_ord_raw_magnitude : ∀ (a q : F),
    Angle.eqScalar (Angle.Deg a) q = F.beq a q ∧
    Angle.eqScalar (Angle.Rad a) q = F.beq a q ∧
    Angle.eqScalar (Angle.Grad a) q = F.beq a q ∧
    Angle.eqScalar (Angle.Turn a) q = F.beq a q ∧
    (∀ c : CalcAngle, Angle.eqScalar (Angle.Calc c) q = false) ∧
    Angle.partialCmpScalar (Angle.Deg a) q = F.partialCmp a q ∧
    Angle.partialCmpScalar (Angle.Rad a) q = F.partialCmp a q ∧
    Angle.partialCmpScalar (Angle.Grad a) q = F.partialCmp a q ∧
    Angle.partialCmpScalar (Angle.Turn a) q = F.partialCmp a q ∧
    (∀ c : CalcAngle, Angle.partialCmpScalar (Angle.Calc c) q = none) ∧
    Angle.eqScalar (Angle.Rad (F.fin 1)) (F.fin 1) = true :=
  fun _ _ =>
    ⟨rfl, rfl, rfl, rfl, fun _ => rfl, rfl, rfl, rfl, rfl, fun _ => rfl, by decide⟩

/-- C8: on each of the four literal variants, `to_radians` returns exactly
the `to_degrees` result multiplied by `PI / 180` (exact in the rational
model, hence within any float tolerance), and both queries return `none` on
the `Calc` variant. -/
theorem to_radians_to_degrees_consistency : ∀ a : F,
    Angle.toRadians (Angle.Deg a) = (Angle.toDegrees (Angle.Deg a)).map degToRad ∧
    Angle.toRadians (Angle.Rad a) = (Angle.toDegrees (Angle.Rad a)).map degToRad ∧
    Angle.toRadians (Angle.Grad a) = (Angle.toDegrees (Angle.Grad a)).map degToRad ∧
    Angle.toRadians (Angle.Turn a) = (Angle.toDegrees (Angle.Turn a)).map degToRad ∧
    (∀ c : CalcAngle,
      Angle.toRadians (Angle.Calc c) = none ∧ Angle.toDegrees (Angle.Calc c) = none) := by
  intro a
  refine ⟨rfl, ?_, rfl, rfl, fun _ => ⟨rfl, rfl⟩⟩
  cases a with
  | nan => rfl
  | fin q =>
      show some (F.fin q) = some (F.fin (qmul (qmul q DEG_PER_RAD) RAD_PER_DEG))
      have key : qmul DEG_PER_RAD RAD_PER_DEG = (1 : ℚ) := by decide
      have hq : qmul (qmul q DEG_PER_RAD) RAD_PER_DEG = q := by
        rw [qmul_eq, qmul_eq, mul_assoc, ← qmul_eq DEG_PER_RAD RAD_PER_DEG, key, mul_one]
      rw [hq]

/-- C10: ordering a literal variant against a bare scalar yields a result
exactly when neither the stored magnitude nor the scalar is NaN; with a NaN
on either side the comparison is `none` even though the value is not a
`Calc` expression. -/
theorem partialCmpScalar_some_iff_not_nan : ∀ (a q : F),
    ((Angle.partialCmpScalar (Angle.Deg a) q).isSome = (!F.isNan a && !F.isNan q)) ∧
    ((Angle.partialCmpScalar (Angle.Rad a) q).isSome = (!F.isNan a && !F.isNan q)) ∧
    ((Angle.partialCmpScalar (Angle.Grad a) q).isSome = (!F.isNan a && !F.isNan q)) ∧
    ((Angle.partialCmpScalar (Angle.Turn a) q).isSome = (!F.isNan a && !F.isNan q)) ∧
    Angle.partialCmpScalar (Angle.Deg F.nan) q = none ∧
    Angle.partialCmpScalar (Angle.Rad a) F.nan = none := by
  intro a q
  cases a <;> cases q <;> exact ⟨rfl, rfl, rfl, rfl, rfl, rfl⟩

/-- C2 (counterexample): for the function token `foo(` the parser does not
produce an unexpected-token error carrying the offending token at the
token's location — it produces a `QualifiedRuleInvalid` error at the
cursor's current location instead. -/
theorem noncalc_function_error_not_unexpected_token :
    Angle.parse ⟨1, 2⟩ ⟨3, 4⟩ (.ok (.Function "foo")) (.error ⟨.EndOfInput, ⟨0, 0⟩⟩) =
      .error ⟨.QualifiedRuleInvalid, ⟨3, 4⟩⟩ ∧
    Angle.parse ⟨1, 2⟩ ⟨3, 4⟩ (.ok (.Function "foo")) (.error ⟨.EndOfInput, ⟨0, 0⟩⟩) ≠
      .error ⟨.UnexpectedToken (.Function "foo"), ⟨1, 2⟩⟩ := by
  refine ⟨rfl, fun h => ?_⟩
  have h0 : (Except.error ⟨.QualifiedRuleInvalid, ⟨3, 4⟩⟩ : Except ParseError Angle) =
      .error ⟨.UnexpectedToken (.Function "foo"), ⟨1, 2⟩⟩ := h
  injection h0 with h1
  injection h1 with hk hl
  exact BasicParseErrorKind.noConfusion hk

/-- C2 (amended): for every function token whose name is not `calc`
(case-insensitively), parse fails with a structured `QualifiedRuleInvalid`
error at the parser's current source location; the error does not carry the
offending token. -/
theorem noncalc_function_qualified_rule_invalid :
    ∀ (loc locCur : SourceLocation) (name : String) (cr : Except ParseError CalcAngle),
    asciiLower name ≠ "calc" →
    Angle.parse loc locCur (.ok (.Function name)) cr =
      .error ⟨.QualifiedRuleInvalid, locCur⟩ := by
  intro loc locCur name cr h
  simp [Angle.parse, h]

/-- C2 (witness): the amended statement applied to the function token `url(`. -/
theorem noncalc_function_qualified_rule_invalid_witness :
    Angle.parse ⟨5, 6⟩ ⟨7, 8⟩ (.ok (.Function "url")) (.error ⟨.EndOfInput, ⟨0, 0⟩⟩) =
      .error ⟨.QualifiedRuleInvalid, ⟨7, 8⟩⟩ :=
  noncalc_function_qualified_rule_invalid ⟨5, 6⟩ ⟨7, 8⟩ "url"
    (.error ⟨.EndOfInput, ⟨0, 0⟩⟩) (by decide)

/-- C4: a dimension token whose unit matches `deg`, `grad`, `turn` or `rad`
case-insensitively parses to the corresponding variant carrying the token's
numeric value unchanged; any other unit fails with an unexpected-token error
carrying the token at its source location. -/
theorem parse_dimension_units :
    ∀ (loc locCur : SourceLocation) (hs : Bool) (value : F) (iv : Option Int)
      (unit : String) (cr : Except ParseError CalcAngle),
    (asciiLower unit = "deg" →
      Angle.parse loc locCur (.ok (.Dimension hs value iv unit)) cr = .ok (Angle.Deg value)) ∧
    (asciiLower unit = "grad" →
      Angle.parse loc locCur (.ok (.Dimension hs value iv unit)) cr = .ok (Angle.Grad value)) ∧
    (asciiLower unit = "turn" →
      Angle.parse loc locCur (.ok (.Dimension hs value iv unit)) cr = .ok (Angle.Turn value)) ∧
    (asciiLower unit = "rad" →
      Angle.parse loc locCur (.ok (.Dimension hs value iv unit)) cr = .ok (Angle.Rad value)) ∧
    (asciiLower unit ≠ "deg" → asciiLower unit ≠ "grad" → asciiLower unit ≠ "turn" →
      asciiLower unit ≠ "rad" →
      Angle.parse loc locCur (.ok (.Dimension hs value iv unit)) cr =
        .error ⟨.UnexpectedToken (.Dimension hs value iv unit), loc⟩) := by
  intro loc locCur hs value iv unit cr
  refine ⟨fun h => ?_, fun h => ?_, fun h => ?_, fun h => ?_, fun h1 h2 h3 h4 => ?_⟩ <;>
    simp [Angle.parse, *]

/-- C4 (witness): the mixed-case unit `DeG` parses as degrees with the value
unchanged, and the unknown unit `foo` produces the unexpected-token error at
the token's location. -/
theorem parse_dimension_units_witness :
    Angle.parse ⟨0, 0⟩ ⟨0, 0⟩ (.ok (.Dimension false (F.fin 5) none "DeG"))
      (.error ⟨.EndOfInput, ⟨0, 0⟩⟩) = .ok (Angle.Deg (F.fin 5)) ∧
    Angle.parse ⟨9, 9⟩ ⟨0, 0⟩ (.ok (.Dimension false (F.fin 10) (some 10) "foo"))
      (.error ⟨.EndOfInput, ⟨0, 0⟩⟩) =
      .error ⟨.UnexpectedToken (.Dimension false (F.fin 10) (some 10) "foo"), ⟨9, 9⟩⟩ :=
  ⟨(parse_dimension_units ⟨0, 0⟩ ⟨0, 0⟩ false (F.fin 5) none "DeG"
      (.error ⟨.EndOfInput, ⟨0, 0⟩⟩)).1 (by decide),
   (parse_dimension_units ⟨9, 9⟩ ⟨0, 0⟩ false (F.fin 10) (some 10) "foo"
      (.error ⟨.EndOfInput, ⟨0, 0⟩⟩)).2.2.2.2 (by decide) (by decide) (by decide) (by decide)⟩

/-- C9: for a `calc` function token (case-insensitively), when `Calc::parse`
returns a single fully-resolved leaf value the parser returns that leaf
directly, never wrapped in the `Calc` variant; only a residual expression is
wrapped; and a `Calc::parse` error propagates. -/
theorem parse_calc_value_collapse :
    ∀ (loc locCur : SourceLocation) (name : String) (cr : Except ParseError CalcAngle),
    asciiLower name = "calc" →
    (∀ v : Angle, cr = .ok (.Value v) →
      Angle.parse loc locCur (.ok (.Function name)) cr = .ok v) ∧
    (∀ c : CalcAngle, cr = .ok c → (∀ v : Angle, c ≠ .Value v) →
      Angle.parse loc locCur (.ok (.Function name)) cr = .ok (Angle.Calc c)) ∧
    (∀ e : ParseError, cr = .error e →
      Angle.parse loc locCur (.ok (.Function name)) cr = .error e) := by
  intro loc locCur name cr h
  refine ⟨?_, ?_, ?_⟩
  · intro v hcr; subst hcr; simp [Angle.parse, h]
  · intro c hcr hnv
    subst hcr
    cases c with
    | Value v => exact absurd rfl (hnv v)
    | Sum a b => simp [Angle.parse, h]
    | Product s c => simp [Angle.parse, h]
  · intro e hcr; subst hcr; simp [Angle.parse, h]

/-- C9 (witness): `CALC(` with a resolved leaf of 45 degrees collapses to the
plain literal, while a residual sum is wrapped in the `Calc` variant. -/
theorem parse_calc_value_collapse_witness :
    Angle.parse ⟨0, 0⟩ ⟨0, 1⟩ (.ok (.Function "CALC"))
      (.ok (.Value (Angle.Deg (F.fin 45)))) = .ok (Angle.Deg (F.fin 45)) ∧
    Angle.parse ⟨0, 0⟩ ⟨0, 1⟩ (.ok (.Function "calc"))
      (.ok (.Sum (.Value (Angle.Deg (F.fin 30))) (.Value (Angle.Deg (F.fin 15))))) =
      .ok (Angle.Calc (.Sum (.Value (Angle.Deg (F.fin 30))) (.Value (Angle.Deg (F.fin 15))))) :=
  ⟨(parse_calc_value_collapse ⟨0, 0⟩ ⟨0, 1⟩ "CALC" _ (by decide)).1 _ rfl,
   (parse_calc_value_collapse ⟨0, 0⟩ ⟨0, 1⟩ "calc" _ (by decide)).2.1 _ rfl
      (fun _ h => CalcAngle.noConfusion h)⟩

/-- C3: round-trip at the lexer's token boundary.  For each literal variant,
the serializer's `(value, unit)` selection feeds a dimension token whose
reparse restores the very same variant and magnitude, except that a radian
value whose unit was switched to degrees reparses as the degree variant
whose `to_degrees` value is exactly the original's (exact in the rational
model, hence within the claim's 1e-5 relative tolerance).  The lexer's own
numeric text round-trip is exact per its interface contract (spec
section 6), so the token-level statement covers the textual one. -/
theorem roundtrip_literal_serialize_parse :
    ∀ (a : F) (loc locCur : SourceLocation) (hs : Bool) (iv : Option Int)
      (cr : Except ParseError CalcAngle),
    (Angle.selValUnit (Angle.Deg a) = some (a, "deg") ∧
      Angle.parse loc locCur (.ok (.Dimension hs a iv "deg")) cr = .ok (Angle.Deg a)) ∧
    (Angle.selValUnit (Angle.Grad a) = some (a, "grad") ∧
      Angle.parse loc locCur (.ok (.Dimension hs a iv "grad")) cr = .ok (Angle.Grad a)) ∧
    (Angle.selValUnit (Angle.Turn a) = some (a, "turn") ∧
      Angle.parse loc locCur (.ok (.Dimension hs a iv "turn")) cr = .ok (Angle.Turn a)) ∧
    (∀ (value : F) (unit : String), Angle.selValUnit (Angle.Rad a) = some (value, unit) →
      (unit = "rad" → value = a ∧
        Angle.parse loc locCur (.ok (.Dimension hs value iv unit)) cr = .ok (Angle.Rad a)) ∧
      (unit = "deg" →
        Angle.parse loc locCur (.ok (.Dimension hs value iv unit)) cr = .ok (Angle.Deg value) ∧
        Angle.toDegrees (Angle.Deg value) = Angle.toDegrees (Angle.Rad a))) := by
  intro a loc locCur hs iv cr
  refine ⟨⟨rfl, rfl⟩, ⟨rfl, rfl⟩, ⟨rfl, rfl⟩, ?_⟩
  intro value unit h
  cases a with
  | fin q =>
      rw [selValUnit_rad_fin] at h
      injection h with h'
      have hv : value = F.fin (qmul q DEG_PER_RAD) := (congrArg Prod.fst h').symm
      have hu : unit = "deg" := (congrArg Prod.snd h').symm
      subst hv; subst hu
      exact ⟨fun hc => absurd hc (by decide), fun _ => ⟨rfl, rfl⟩⟩
  | nan =>
      have hsel : Angle.selValUnit (Angle.Rad F.nan) = some (F.nan, "rad") := rfl
      rw [hsel] at h
      injection h with h'
      have hv : value = F.nan := (congrArg Prod.fst h').symm
      have hu : unit = "rad" := (congrArg Prod.snd h').symm
      subst hv; subst hu
      exact ⟨fun _ => ⟨rfl, rfl⟩, fun hc => absurd hc (by decide)⟩

/-- C3 (witness): zero radians serializes with unit `deg` and magnitude 0;
reparsing that token yields `Deg 0`, whose `to_degrees` equals the
original's. -/
theorem roundtrip_literal_serialize_parse_witness :
    Angle.parse ⟨0, 0⟩ ⟨0, 0⟩ (.ok (.Dimension false (F.fin 0) (some 0) "deg"))
      (.error ⟨.EndOfInput, ⟨0, 0⟩⟩) = .ok (Angle.Deg (F.fin 0)) ∧
    Angle.toDegrees (Angle.Deg (F.fin 0)) = Angle.toDegrees (Angle.Rad (F.fin 0)) :=
  ((roundtrip_literal_serialize_parse (F.fin 0) ⟨0, 0⟩ ⟨0, 0⟩ false (some 0)
      (.error ⟨.EndOfInput, ⟨0, 0⟩⟩)).2.2.2 (F.fin 0) "deg" (by decide)).2 rfl

/-- C5 (counterexample): a zero radian value does not keep its unit — the
radian-to-degree switch fires on it and it serializes as `0deg`, not `0rad`,
refuting the claim's clause that a value with magnitude 0.0 has its unit
preserved as-is. -/
theorem rad_zero_serializes_as_deg :
    Angle.toCss (Angle.Rad (F.fin 0)) = "0deg" ∧
    Angle.toCss (Angle.Rad (F.fin 0)) ≠ "0rad" :=
  ⟨by decide, by decide⟩

/-- C5 (amended): with `(value, unit)` the pair selected by serializer step 1,
a nonzero value of absolute value strictly below one renders the full token
into a buffer and strips the redundant leading zero (for negatives a literal
minus sign followed by the buffer with its leading `-0` removed, otherwise
the buffer with leading `0`s removed, e.g. `Turns(-0.25)` gives `-.25turn`);
a zero value is not compacted and its token is written directly — degrees,
gradians and turns keep their unit, while zero radians serializes as `0deg`
because the radian-to-degree switch applies during selection. -/
theorem leading_zero_compaction :
    (∀ (v : Angle) (value : F) (unit : String),
      Angle.selValUnit v = some (value, unit) →
      (F.beq value (F.fin 0) = false → F.lt (F.abs value) (F.fin 1) = true →
        Angle.toCss v =
          if F.lt value (F.fin 0) then
            "-" ++ trimStartMatchesStr (Token.toCssString (dimToken value unit)) "-0"
          else trimStartMatchesChar (Token.toCssString (dimToken value unit)) '0') ∧
      (F.beq value (F.fin 0) = true →
        Angle.toCss v = Token.toCssString (dimToken value unit))) ∧
    Angle.toCss (Angle.Turn (F.fin (mkRat (-1) 4))) = "-.25turn" ∧
    Angle.toCss (Angle.Deg (F.fin 0)) = "0deg" ∧
    Angle.toCss (Angle.Grad (F.fin 0)) = "0grad" ∧
    Angle.toCss (Angle.Turn (F.fin 0)) = "0turn" ∧
    Angle.toCss (Angle.Rad (F.fin 0)) = "0deg" := by
  refine ⟨?_, by decide, by decide, by decide, by decide, by decide⟩
  intro v value unit h
  rw [toCss_selValUnit v value unit h]
  constructor
  · intro h0 h1
    simp only [dimToCss, h0, h1, Bool.not_false, Bool.true_and, if_true]
  · intro h0
    simp [dimToCss, h0]

/-- C5 (witness): the amended statement applied at `Turns(-0.25)` (nonzero,
compacted) and at `Degrees(0)` (zero, uncompacted). -/
theorem leading_zero_compaction_witness :
    (Angle.toCss (Angle.Turn (F.fin (mkRat (-1) 4))) =
      if F.lt (F.fin (mkRat (-1) 4)) (F.fin 0) then
        "-" ++ trimStartMatchesStr
          (Token.toCssString (dimToken (F.fin (mkRat (-1) 4)) "turn")) "-0"
      else trimStartMatchesChar
        (Token.toCssString (dimToken (F.fin (mkRat (-1) 4)) "turn")) '0') ∧
    Angle.toCss (Angle.Deg (F.fin 0)) = Token.toCssString (dimToken (F.fin 0) "deg") :=
  ⟨(leading_zero_compaction.1 (Angle.Turn (F.fin (mkRat (-1) 4))) (F.fin (mkRat (-1) 4))
      "turn" (by decide)).1 (by decide) (by decide),
   (leading_zero_compaction.1 (Angle.Deg (F.fin 0)) (F.fin 0) "deg" (by decide)).2 (by decide)⟩

/-- C6: addition is symbolically sticky and degree-normalizing — two `Calc`
operands combine their trees into a `Calc`; a single `Calc` operand wraps the
literal side as a resolved leaf and stays `Calc`; and two literal operands
produce a `Deg` whose magnitude is the sum of the two `to_degrees` values,
which are both defined (`some`) in that branch. -/
theorem add_sticky_and_degree_normalizing :
    (∀ a b : CalcAngle,
      Angle.add (Angle.Calc a) (Angle.Calc b) = Angle.Calc (CalcAngle.add a b)) ∧
    (∀ (a : CalcAngle) (y : Angle), (∀ b, y ≠ Angle.Calc b) →
      Angle.add (Angle.Calc a) y = Angle.Calc (CalcAngle.add a (CalcAngle.Value y))) ∧
    (∀ (x : Angle) (b : CalcAngle), (∀ a, x ≠ Angle.Calc a) →
      Angle.add x (Angle.Calc b) = Angle.Calc (CalcAngle.add (CalcAngle.Value x) b)) ∧
    (∀ x y : Angle, (∀ a, x ≠ Angle.Calc a) → (∀ b, y ≠ Angle.Calc b) →
      ∃ dx dy : F, Angle.toDegrees x = some dx ∧ Angle.toDegrees y = some dy ∧
        Angle.add x y = Angle.Deg (F.add dx dy)) := by
  refine ⟨fun a b => rfl, ?_, ?_, ?_⟩
  · intro a y hy
    cases y <;> first | rfl | exact absurd rfl (hy _)
  · intro x b hx
    cases x <;> first | rfl | exact absurd rfl (hx _)
  · intro x y hx hy
    cases x <;>
      first
        | exact absurd rfl (hx _)
        | (cases y <;>
            first
              | exact absurd rfl (hy _)
              | exact ⟨_, _, rfl, rfl, rfl⟩)

/-- C6 (witness): the four branches at concrete operands — two expressions,
expression plus literal in either order, and two literals summing to
degrees. -/
theorem add_sticky_and_degree_normalizing_witness :
    Angle.add (Angle.Calc (.Value (Angle.Deg (F.fin 1))))
        (Angle.Calc (.Value (Angle.Deg (F.fin 2)))) =
      Angle.Calc (CalcAngle.add (.Value (Angle.Deg (F.fin 1)))
        (.Value (Angle.Deg (F.fin 2)))) ∧
    Angle.add (Angle.Calc (.Value (Angle.Deg (F.fin 1)))) (Angle.Turn (F.fin 2)) =
      Angle.Calc (CalcAngle.add (.Value (Angle.Deg (F.fin 1)))
        (.Value (Angle.Turn (F.fin 2)))) ∧
    Angle.add (Angle.Turn (F.fin 2)) (Angle.Calc (.Value (Angle.Deg (F.fin 1)))) =
      Angle.Calc (CalcAngle.add (.Value (Angle.Turn (F.fin 2)))
        (.Value (Angle.Deg (F.fin 1)))) ∧
    Angle.add (Angle.Deg (F.fin 1)) (Angle.Deg (F.fin 2)) =
      Angle.Deg (F.add (F.fin 1) (F.fin 2)) := by
  refine ⟨add_sticky_and_degree_normalizing.1 _ _,
    add_sticky_and_degree_normalizing.2.1 _ _ (fun _ h => Angle.noConfusion h),
    add_sticky_and_degree_normalizing.2.2.1 _ _ (fun _ h => Angle.noConfusion h), ?_⟩
  obtain ⟨dx, dy, h1, h2, h3⟩ :=
    add_sticky_and_degree_normalizing.2.2.2 (Angle.Deg (F.fin 1)) (Angle.Deg (F.fin 2))
      (fun _ h => Angle.noConfusion h) (fun _ h => Angle.noConfusion h)
  simp only [Angle.toDegrees, Option.some.injEq] at h1 h2
  subst h1
  subst h2
  exact h3
